import Mathlib

/-!
Verification of the youtube-video-creator-terminal repository.

The Python sources (yt_creator.py, yt_creator_linux.py, yt_creator_termux.py,
old/ytc.py) are shallowly embedded below.  Strings are modelled as lists of
characters (`Str`), Python floats as rationals (the progress values exercised
here are exactly representable), Python ints as `Int`/`Nat`, and fallible code
as `Option`/`Except`.  Filesystem and process interaction is modelled by
passing the externally observed data (directory listings, captured output
lines, exit codes, key codes) as explicit arguments.
-/

/-! ## String utilities (embeddings of Python str/os.path/pathlib helpers) -/

abbrev Str := List Char

/-- Embedding of Python str.lower (the repository only lowercases ASCII
extension/container strings). -/
def lowerStr (s : Str) : Str := s.map Char.toLower

/-- Embedding of Python str.endswith: the suffix matches the end of the string. -/
def endswith (s suf : Str) : Bool := (s.drop (s.length - suf.length)) == suf

/-- Embedding of Python str.strip() with no argument: drop whitespace from both ends. -/
def pyStrip (s : Str) : Str :=
  (((s.dropWhile Char.isWhitespace).reverse).dropWhile Char.isWhitespace).reverse

/-- Embedding of Python str.split(c) for a one-character separator: split at every
occurrence of the separator. -/
def splitOnChar (c : Char) : Str → List Str
  | [] => [[]]
  | x :: xs =>
    match splitOnChar c xs with
    | [] => [[]]
    | h :: t => if x = c then [] :: h :: t else (x :: h) :: t

/-- Split a string at the first occurrence of a character, if any; used to embed
Python str.partition(c) (which keys on the first separator occurrence). -/
def splitFirstChar (c : Char) : Str → Option (Str × Str)
  | [] => none
  | x :: xs =>
    if x = c then some ([], xs)
    else (splitFirstChar c xs).map (fun p => (x :: p.1, p.2))

/-- Index of the last occurrence of a character, if any. -/
def rfindAux (c : Char) : Str → Option Nat
  | [] => none
  | x :: xs =>
    match rfindAux c xs with
    | some i => some (i + 1)
    | none => if x = c then some 0 else none

/-- Embedding of Python str.rfind(c): index of last occurrence, or -1. -/
def rfindI (c : Char) (s : Str) : Int :=
  match rfindAux c s with
  | some i => (i : Int)
  | none => -1

/-- Embedding of the split position of posixpath.splitext: the last dot, provided
it comes after the last path separator and the basename does not consist solely
of leading dots up to it. -/
def splitextIdx? (p : Str) : Option Nat :=
  let sepIndex := rfindI '/' p
  let dotIndex := rfindI '.' p
  if sepIndex < dotIndex then
    if ((p.drop (sepIndex + 1).toNat).take (dotIndex - sepIndex - 1).toNat).any
        (fun ch => ch != '.') then
      some dotIndex.toNat
    else none
  else none

/-- First component (root) of Python os.path.splitext. -/
def splitextRoot (p : Str) : Str :=
  match splitextIdx? p with
  | some i => p.take i
  | none => p

/-- Second component (extension) of Python os.path.splitext. -/
def splitextExt (p : Str) : Str :=
  match splitextIdx? p with
  | some i => p.drop i
  | none => []

/-- Embedding of pathlib.PurePath.suffix applied to an entry name: the final
dot-suffix, empty when the dot is leading or trailing. -/
def pathSuffix (name : Str) : Str :=
  match rfindAux '.' name with
  | some i => if 0 < i ∧ i < name.length - 1 then name.drop i else []
  | none => []

/-- Numeric value of a digit string (used only on strings checked to be digits). -/
def digitsVal (l : Str) : Nat := l.foldl (fun a c => a * 10 + (c.toNat - 48)) 0

/-- Digits-only parse of a nonempty string. -/
def digitsToNat? (l : Str) : Option Nat :=
  if l.isEmpty then none
  else if l.all Char.isDigit then some (digitsVal l) else none

/-- Embedding of Python int(str): strip whitespace, optional sign, decimal digits.
(Underscore digit grouping, accepted by CPython, is not exercised by the
progress protocol and is omitted.) -/
def parseInt? (s : Str) : Option Int :=
  match pyStrip s with
  | '+' :: ds => (digitsToNat? ds).map (fun n => (n : Int))
  | '-' :: ds => (digitsToNat? ds).map (fun n => -(n : Int))
  | ds => (digitsToNat? ds).map (fun n => (n : Int))

/-- Unsigned decimal part of Python float(str): digits with an optional single
dot, at least one digit present. -/
def parseUFloat? (b : Str) : Option ℚ :=
  match splitFirstChar '.' b with
  | none => (digitsToNat? b).map (fun n => (n : ℚ))
  | some (ip, fp) =>
    if (ip.all Char.isDigit && fp.all Char.isDigit) && !(ip.isEmpty && fp.isEmpty) then
      some ((digitsVal ip : ℚ) + (digitsVal fp : ℚ) / ((10 : ℚ) ^ fp.length))
    else none

/-- Embedding of Python float(str) restricted to the decimal forms the ffmpeg
progress protocol emits (sign, digits, optional fraction; exponent/inf/nan
forms are not exercised and are omitted).  Rationals stand in for floats: every
value exercised by the spec is exactly representable. -/
def parseFloat? (s : Str) : Option ℚ :=
  match pyStrip s with
  | '+' :: ds => parseUFloat? ds
  | '-' :: ds => (parseUFloat? ds).map Neg.neg
  | ds => parseUFloat? ds

/-- Embedding of os.path.join for the shapes used here (second component relative). -/
def pyJoin (a b : Str) : Str :=
  if a.isEmpty then b
  else if a.getLast? = some '/' then a ++ b
  else a ++ '/' :: b

/-! ## Lexicographic ordering on strings (Python sorted() compares code points) -/

def strLeB : Str → Str → Bool
  | [], _ => true
  | _ :: _, [] => false
  | a :: as, b :: bs =>
    if a.toNat < b.toNat then true
    else if b.toNat < a.toNat then false
    else strLeB as bs

def strLe (a b : Str) : Prop := strLeB a b = true

instance : DecidableRel strLe := fun _ _ => inferInstanceAs (Decidable (_ = true))

/-- Embedding of Python sorted() on a list of strings.  sorted() is a stable
comparison sort producing the le-sorted permutation; insertion sort computes
the same list (duplicate strings are identical, so stability is immaterial). -/
def sortStrs (l : List Str) : List Str := List.insertionSort strLe l

/-! ## Directory listings -/

/-- Parent-navigation marker ".." injected at the head of every listing. -/
def dotdot : Str := "..".data

/-- One entry of a directory listing as observed through os.listdir/Path.iterdir
plus the is_dir/is_file probes the code performs on it. -/
structure DirEntry where
  name : Str
  isDir : Bool
  isFile : Bool
deriving DecidableEq, Repr

def entryLe (a b : DirEntry) : Prop := strLe a.name b.name

instance : DecidableRel entryLe := fun a b => inferInstanceAs (Decidable (strLe a.name b.name))

/-- Sorting directory entries by name; yt_creator.py sorts the name strings and
then probes isdir on each (names within one directory are distinct, so sorting
the carrying entries is the same list). -/
def sortEntries (l : List DirEntry) : List DirEntry := List.insertionSort entryLe l

/-- The label contributed by one entry in yt_creator.py list_dir_entries:
directories get a trailing slash and bypass the filter; files pass iff the
extension of the lowercased name is in the allowed set (None = no filter). -/
def entryLabel (allowed : Option (List Str)) (e : DirEntry) : Option Str :=
  if e.isDir then some (e.name ++ ['/'])
  else
    match allowed with
    | none => some e.name
    | some exts => if splitextExt (lowerStr e.name) ∈ exts then some e.name else none

/-- Embedding of yt_creator.py list_dir_entries.  The os.listdir result is
passed explicitly: none models the except-branch (any read failure returns the
empty list), some gives the raw entries. -/
def list_dir_entries (listing : Option (List DirEntry)) (allowed : Option (List Str)) :
    List Str :=
  match listing with
  | none => []
  | some items => dotdot :: (sortEntries items).filterMap (entryLabel allowed)

/-- Result of reading a directory in the linux/old variants: Path.iterdir either
succeeds, raises PermissionError (the only caught exception), or raises some
other OSError such as FileNotFoundError. -/
inductive ReadResult where
  | ok (entries : List DirEntry)
  | permError
  | otherError
deriving DecidableEq, Repr

/-- The filter of FileSelector.update_files (yt_creator_linux.py, old/ytc.py):
keep directories, and files whose lowercased pathlib suffix is in the
(pre-lowercased) extension list. -/
def linuxKeep (extensions : List Str) (f : DirEntry) : Bool :=
  f.isDir || (f.isFile && decide (lowerStr (pathSuffix f.name) ∈ extensions))

/-- The file list FileSelector.update_files builds on a successful read:
".." prepended to the sorted, filtered entry names (no filter when the
extension list is empty). -/
def update_files_names (extensions : List Str) (items : List DirEntry) : List Str :=
  if extensions.isEmpty then dotdot :: sortStrs (items.map (·.name))
  else dotdot :: sortStrs ((items.filter (linuxKeep extensions)).map (·.name))

/-- Embedding of FileSelector.update_files list construction including its
exception behaviour: PermissionError degrades to just the parent marker, any
other read error propagates (Except.error). -/
def update_files_r (extensions : List Str) (res : ReadResult) : Except Unit (List Str) :=
  match res with
  | .ok items => .ok (update_files_names extensions items)
  | .permError => .ok [dotdot]
  | .otherError => .error ()

/-- A name as returned by os.listdir/iterdir: contains no path separator and is
never the parent marker. -/
def validName (n : Str) : Prop := '/' ∉ n ∧ n ≠ dotdot

instance : DecidablePred validName := fun n =>
  inferInstanceAs (Decidable ('/' ∉ n ∧ n ≠ dotdot))

/-- Remove the trailing slash a directory label carries, recovering the entry name. -/
def stripSlash (s : Str) : Str := if s.getLast? = some '/' then s.dropLast else s

/-! ## ffmpeg invocation vector (yt_creator.py build_ffmpeg_cmd) -/

/-- The scale-then-pad video filter string of build_ffmpeg_cmd. -/
def vfString (w h : Str) : Str :=
  "scale=".data ++ w ++ ':' :: h ++ ":force_original_aspect_ratio=decrease,pad=".data
    ++ w ++ ':' :: h ++ ":(ow-iw)/2:(oh-ih)/2".data

/-- The filter string at resolution 1280x720. -/
def vf720 : Str :=
  "scale=1280:720:force_original_aspect_ratio=decrease,pad=1280:720:(ow-iw)/2:(oh-ih)/2".data

def res720 : Str := "1280x720".data

/-- Embedding of yt_creator.py build_ffmpeg_cmd.  resolution.split("x") must
yield exactly two parts (otherwise Python raises ValueError: none).  The
audio codec keys the container/video-codec/extra-args choice, and the output
suffix is rewritten when the lowercased path does not end in the container. -/
def build_ffmpeg_cmd (image_path audio_path out_path resolution acodec : Str)
    (abr_kbps : Nat) (framerate : Nat) : Option (List Str) :=
  match splitOnChar 'x' resolution with
  | [w, h] =>
    let container : Str := if acodec = "libopus".data then "webm".data else "mp4".data
    let vcodec : Str := if acodec = "libopus".data then "libvpx-vp9".data else "libx264".data
    let extra_v : List Str :=
      if acodec = "libopus".data then
        ["-pix_fmt".data, "yuv420p".data, "-crf".data, "32".data, "-b:v".data, "0".data]
      else
        ["-tune".data, "stillimage".data, "-pix_fmt".data, "yuv420p".data,
         "-preset".data, "veryfast".data, "-movflags".data, "+faststart".data]
    let out_path' : Str :=
      if endswith (lowerStr out_path) ('.' :: container) then out_path
      else splitextRoot out_path ++ '.' :: container
    some (["ffmpeg".data, "-y".data, "-loop".data, "1".data,
           "-framerate".data, (toString framerate).data,
           "-i".data, image_path, "-i".data, audio_path,
           "-c:v".data, vcodec, "-vf".data, vfString w h]
          ++ extra_v
          ++ ["-c:a".data, acodec, "-b:a".data, (toString abr_kbps).data ++ ['k'],
              "-ar".data, "48000".data, "-shortest".data,
              "-progress".data, "pipe:1".data, "-nostats".data, out_path'])
  | _ => none

/-- Last element of an argument vector (the output path slot). -/
def lastArg : List Str → Option Str
  | [] => none
  | [a] => some a
  | _ :: b :: rest => lastArg (b :: rest)

/-! ## Progress line parsing (yt_creator.py progress_screen, lines 304-318) -/

/-- The running progress sample: processed seconds (out_time) and speed factor. -/
structure ProgressSample where
  outTime : ℚ
  speed : ℚ
deriving DecidableEq, Repr

/-- The stripped key of a progress line: the part before the first "=" (the
whole line when there is no "="), as produced by str.partition. -/
def lineKey (line : Str) : Str :=
  pyStrip (match splitFirstChar '=' line with | some p => p.1 | none => line)

/-- The stripped value of a progress line: the part after the first "="
(empty when there is no "="). -/
def lineVal (line : Str) : Str :=
  pyStrip (match splitFirstChar '=' line with | some p => p.2 | none => [])

/-- Embedding of one iteration of the progress parser: partition the line at the
first "=", strip key and value; out_time_ms updates outTime via int()/1e6,
speed updates the factor via float() after checking the trailing "x"; parse
failures (the try/except pass) and unrecognized keys leave the sample
unchanged.  Totality of this function embeds the code's never-raises
behaviour. -/
def parseProgressLine (st : ProgressSample) (line : Str) : ProgressSample :=
  let key := lineKey line
  let val := lineVal line
  if key = "out_time_ms".data then
    match parseInt? val with
    | some n => { st with outTime := (n : ℚ) / 1000000 }
    | none => st
  else if key = "speed".data then
    if endswith val ['x'] then
      match parseFloat? val.dropLast with
      | some q => { st with speed := q }
      | none => st
    else st
  else st

/-! ## ETA computation -/

/-- Embedding of the ETA shown by yt_creator.py progress_screen (lines 327-338):
when the duration hint is known and positive, remaining = max(hint - processed, 0)
and eta = remaining / (speed if speed > 0 else 1); otherwise no ETA is shown.
This is the only ETA the program ever displays: the percent-guarded ETA of
old/ytc.py (lines 400-410) is unreachable, because that variant's poll loop
stops with a NameError on the unimported select at its line 387 before any
ETA is drawn. -/
def eta_yt (total_duration : Option ℚ) (out_time speed : ℚ) : Option ℚ :=
  match total_duration with
  | some td =>
    if 0 < td then
      some (max (td - out_time) 0 / (if 0 < speed then speed else 1))
    else none
  | none => none

/-! ## Job outcome mapping (yt_creator_linux.py run_ffmpeg, lines 301-311) -/

inductive JobOutcome where
  | Succeeded
  | Failed (exitCode : Int) (diag : Str)
  | Cancelled
deriving DecidableEq, Repr

/-- Embedding of the supervisor's terminal outcome on normal process exit: the
read loop keeps the stripped text of every non-empty captured line in
last_line; exit code 0 reports success, anything else reports failure with
last_line as the diagnostic. -/
def run_ffmpeg_outcome (lines : List Str) (rc : Int) : JobOutcome :=
  let last_line := lines.foldl (fun acc l => if l.isEmpty then acc else pyStrip l) []
  if rc = 0 then .Succeeded else .Failed rc last_line

/-- The stripped last non-empty captured output line (empty when none exists). -/
def lastNonEmptyDiag (lines : List Str) : Str :=
  match lines.reverse.find? (fun l => !l.isEmpty) with
  | some l => pyStrip l
  | none => []

/-! ## Cancellation (yt_creator.py lines 345-356; old/ytc.py finally block) -/

inductive Sig where
  | term
  | kill
deriving DecidableEq, Repr

/-- Embedding of the key handling in yt_creator.py progress_screen: on q (113)
or ESC (27) the process is terminated immediately, killed 0.2s later if still
alive, and 130 is returned; no confirmation step exists.  Returns the signals
sent and the return value, given whether the process survives the terminate. -/
def yt_cancel_key (ch : Int) (aliveAfterTerm : Bool) : List Sig × Option Int :=
  if ch = 113 ∨ ch = 27 then
    ((if aliveAfterTerm then [Sig.term, Sig.kill] else [Sig.term]), some 130)
  else ([], none)

/-- Embedding of the finally block of old/ytc.py run_ffmpeg (lines 493-496):
on any exit from the function the child is terminated if it is still running.
This is the only teardown that variant ever performs on the child: its poll
loop (and with it the confirmation-prompt code at lines 440-464) is
unreachable, because the loop's first iteration raises a NameError on the
unimported select at line 387, which lands on the internal-error screen and
then runs this block — no confirmation is ever requested. -/
def ytc_finally_terminate (running : Bool) : List Sig :=
  if running then [Sig.term] else []

/-! ## Output file naming -/

/-- The character class of re.sub in old/ytc.py and yt_creator_termux.py:
ASCII alphanumerics plus dot, underscore, hyphen. -/
def allowedFileChar (c : Char) : Bool := c.isAlphanum || c == '.' || c == '_' || c == '-'

/-- Embedding of re.sub replacing every disallowed character by an underscore. -/
def sanitize (base : Str) : Str := base.map (fun c => if allowedFileChar c then c else '_')

/-- Embedding of resolution.replace("x", "p"). -/
def replaceXtoP (res : Str) : Str := res.map (fun c => if c = 'x' then 'p' else c)

/-- Output name built by old/ytc.py and yt_creator_termux.py main. -/
def output_path_ytc (base res fmt : Str) : Str :=
  sanitize base ++ "_yt_".data ++ replaceXtoP res ++ '.' :: fmt ++ ".mp4".data

/-- Output name built by yt_creator_linux.py main (no sanitization). -/
def output_path_linux (base res fmt : Str) : Str :=
  base ++ "_youtube_".data ++ replaceXtoP res ++ '.' :: fmt ++ ".mp4".data

/-- Output name built by yt_creator.py main: a timestamped name in the audio
directory, independent of the audio base name and resolution. -/
def suggested_out_yt (dir : Str) (timestamp : Nat) (container : Str) : Str :=
  pyJoin dir ("output_".data ++ (toString timestamp).data ++ '.' :: container)

/-! ## Cursor/viewport state machines -/

/-- Embedding of the clamp helper of yt_creator.py: clamp(n, a, b) = max(a, min(n, b)). -/
def clampI (n a b : Int) : Int := max a (min n b)

/-- Initial cursor of SimpleMenu: clamp(preselect, 0, max(0, len-1)). -/
def menuInit (len preselect : Int) : Int := clampI preselect 0 (max 0 (len - 1))

/-- One cursor move of SimpleMenu.run: clamp(index+d, 0, len-1). -/
def menuStep (len idx d : Int) : Int := clampI (idx + d) 0 (len - 1)

/-- Cursor after a sequence of moves of SimpleMenu.run. -/
def menuRun (len preselect : Int) (ds : List Int) : Int :=
  ds.foldl (menuStep len) (menuInit len preselect)

/-- Viewport offset computed each redraw by SimpleMenu.run:
clamp(index - visible/2, 0, max(0, len-visible)). -/
def menuTop (len v idx : Int) : Int := clampI (idx - v / 2) 0 (max 0 (len - v))

structure ScrollState where
  cursor : Int
  scroll_offset : Int
deriving DecidableEq, Repr

/-- Embedding of FileSelector.adjust_scroll (old/ytc.py): pull the offset up to
the cursor, or down so the cursor is the last visible line, then clamp at 0. -/
def adjust_scroll (vis : Int) (s : ScrollState) : ScrollState :=
  let off1 :=
    if s.cursor < s.scroll_offset then s.cursor
    else if s.scroll_offset + vis ≤ s.cursor then s.cursor - vis + 1
    else s.scroll_offset
  { cursor := s.cursor, scroll_offset := max 0 off1 }

/-- Embedding of FileSelector.navigate (old/ytc.py): clamp the moved cursor into
range, then adjust the scroll offset. -/
def fsel_navigate (len vis : Int) (s : ScrollState) (d : Int) : ScrollState :=
  adjust_scroll vis
    { cursor := max 0 (min (s.cursor + d) (len - 1)), scroll_offset := s.scroll_offset }

/-- Scroll state after a sequence of navigate calls from the initial state. -/
def scrollRun (len vis : Int) (ds : List Int) : ScrollState :=
  ds.foldl (fsel_navigate len vis) { cursor := 0, scroll_offset := 0 }

/-- Cursor-in-range invariant of the option menu. -/
def MenuInv (len idx : Int) : Prop := 0 ≤ idx ∧ idx ≤ len - 1

/-- Cursor and viewport invariant of the scrolling selector. -/
def ScrollInv (len vis : Int) (s : ScrollState) : Prop :=
  0 ≤ s.cursor ∧ s.cursor < len ∧ 0 ≤ s.scroll_offset ∧ s.scroll_offset ≤ s.cursor ∧
    s.cursor < s.scroll_offset + vis

/-! ## FileSelector state machine (yt_creator_linux.py) -/

/-- FileSelector state: current directory as a component path from the
filesystem root, cursor, and the files list. -/
structure FSState where
  path : List Str
  cursor : Int
  files : List Str
deriving DecidableEq, Repr

/-- Embedding of FileSelector.update_files on this state: rebuild the files list
from the directory read result and clamp the cursor to min(cursor, len-1);
a non-permission read error propagates. -/
def fs_update (exts : List Str) (res : ReadResult) (s : FSState) : Except Unit FSState :=
  match update_files_r exts res with
  | .ok files => .ok { s with files := files, cursor := min s.cursor ((files.length : Int) - 1) }
  | .error e => .error e

/-- Embedding of FileSelector.navigate: cursor = max(0, min(cursor + d, len-1)). -/
def fs_navigate (d : Int) (s : FSState) : FSState :=
  { s with cursor := max 0 (min (s.cursor + d) ((s.files.length : Int) - 1)) }

/-- Embedding of FileSelector.enter: index the files list at the cursor; ".."
moves to the parent (the parent of the root is the root), a directory descends,
a file returns its path with the state untouched; directory changes reset the
cursor and reload the listing. -/
def fs_enter (fs : List Str → ReadResult) (isDirQ : List Str → Str → Bool)
    (exts : List Str) (s : FSState) : Except Unit (FSState × Option (List Str)) :=
  let selected := s.files.getD s.cursor.toNat []
  if selected = dotdot then
    (fs_update exts (fs s.path.dropLast) { s with path := s.path.dropLast, cursor := 0 }).map
      (fun s2 => (s2, none))
  else if isDirQ s.path selected then
    (fs_update exts (fs (s.path ++ [selected]))
        { s with path := s.path ++ [selected], cursor := 0 }).map
      (fun s2 => (s2, none))
  else
    .ok (s, some (s.path ++ [selected]))

/-- Embedding of FileSelector.__init__: cursor 0, empty files, then update_files. -/
def fs_init (fs : List Str → ReadResult) (exts : List Str) (start : List Str) :
    Except Unit FSState :=
  fs_update exts (fs start) { path := start, cursor := 0, files := [] }

inductive FSOp where
  | nav (d : Int)
  | enter
  | refresh
deriving DecidableEq, Repr

def fs_step (fs : List Str → ReadResult) (isDirQ : List Str → Str → Bool)
    (exts : List Str) : FSOp → FSState → Except Unit FSState
  | .nav d, s => .ok (fs_navigate d s)
  | .enter, s => (fs_enter fs isDirQ exts s).map Prod.fst
  | .refresh, s => fs_update exts (fs s.path) s

def fs_run (fs : List Str → ReadResult) (isDirQ : List Str → Str → Bool)
    (exts : List Str) : List FSOp → FSState → Except Unit FSState
  | [], s => .ok s
  | op :: ops, s =>
    match fs_step fs isDirQ exts op s with
    | .ok s1 => fs_run fs isDirQ exts ops s1
    | .error e => .error e

/-- FileSelector safety invariant: the files list starts with the parent marker
(hence is non-empty) and the cursor indexes it in range. -/
def FSInv (s : FSState) : Prop :=
  s.files.head? = some dotdot ∧ 0 ≤ s.cursor ∧ s.cursor < (s.files.length : Int)

/-- The keep-condition implicit in entryLabel: directories always pass; files
pass when unfiltered or when the extension of the lowercased name is allowed. -/
def keepA (allowed : Option (List Str)) (e : DirEntry) : Bool :=
  e.isDir ||
    match allowed with
    | none => true
    | some exts => decide (splitextExt (lowerStr e.name) ∈ exts)

/-- The label produced for a kept entry: trailing slash for directories. -/
def labelA (e : DirEntry) : Str := if e.isDir then e.name ++ ['/'] else e.name

/-- The listing properties claimed for yt_creator.py list_dir_entries: parent
marker first; tail lexicographically sorted by entry name with directories and
files interleaved (labels compared after removing the directory slash);
directories always listed; files listed iff the extension of the lowercased
name is in the allowed set, with a missing filter admitting every file. -/
def C6SpecA (items : List DirEntry) (allowed : Option (List Str)) : Prop :=
  (list_dir_entries (some items) allowed).head? = some dotdot ∧
  (list_dir_entries (some items) allowed).tail.Pairwise
    (fun a b => strLe (stripSlash a) (stripSlash b)) ∧
  (∀ e ∈ items, e.isDir = true →
    (e.name ++ ['/']) ∈ list_dir_entries (some items) allowed) ∧
  (∀ e ∈ items, e.isDir = false →
    ((e.name ∈ list_dir_entries (some items) allowed) ↔
      (allowed = none ∨
        ∃ exts, allowed = some exts ∧ splitextExt (lowerStr e.name) ∈ exts)))

/-- The listing properties claimed for FileSelector.update_files: parent marker
first; sorted name tail with directories and files interleaved; an empty
extension list admits every entry; with a non-empty list directories are always
included and regular files are included iff their lowercased pathlib suffix is
in the list. -/
def C6SpecB (items : List DirEntry) (exts : List Str) : Prop :=
  (update_files_names exts items).head? = some dotdot ∧
  (update_files_names exts items).tail.Pairwise strLe ∧
  (exts = [] → ∀ e ∈ items, e.name ∈ update_files_names exts items) ∧
  (exts ≠ [] → ∀ e ∈ items,
    (e.isDir = true → e.name ∈ update_files_names exts items) ∧
    (e.isDir = false → e.isFile = true →
      (e.name ∈ update_files_names exts items ↔ lowerStr (pathSuffix e.name) ∈ exts)))

/-! ## C1 statement and demonstration data -/

/-- The property claimed of the generated argument vectors at 1280x720 / 192
kbps: the AAC vector carries the scale/pad filter, the 192k audio bitrate and
the default video codec, and ends in an mp4 output path that is the
suffix-rewritten request whenever the request's extension mismatches; choosing
Opus flips the video codec to the alternate table entry and the container to
webm with the same rewrite rule. -/
def C1Concl (out : Str) (cmdA cmdO : List Str) : Prop :=
  (vf720 ∈ cmdA ∧ "192k".data ∈ cmdA ∧ "libx264".data ∈ cmdA ∧
    ∃ op, lastArg cmdA = some op ∧ endswith (lowerStr op) ".mp4".data = true ∧
      (endswith (lowerStr out) ".mp4".data = false → op = splitextRoot out ++ ".mp4".data)) ∧
  ("libvpx-vp9".data ∈ cmdO ∧ "192k".data ∈ cmdO ∧
    ∃ op, lastArg cmdO = some op ∧ endswith (lowerStr op) ".webm".data = true ∧
      (endswith (lowerStr out) ".webm".data = false → op = splitextRoot out ++ ".webm".data))

/-- The vector produced for image a.png, audio b.mp3, requested output
/d/o.avi, 1280x720, AAC at 192 kbps, 30 fps. -/
def demoCmdAac : List Str :=
  ["ffmpeg".data, "-y".data, "-loop".data, "1".data, "-framerate".data, "30".data,
   "-i".data, "a.png".data, "-i".data, "b.mp3".data, "-c:v".data, "libx264".data,
   "-vf".data, vf720, "-tune".data, "stillimage".data, "-pix_fmt".data, "yuv420p".data,
   "-preset".data, "veryfast".data, "-movflags".data, "+faststart".data,
   "-c:a".data, "aac".data, "-b:a".data, "192k".data, "-ar".data, "48000".data,
   "-shortest".data, "-progress".data, "pipe:1".data, "-nostats".data, "/d/o.mp4".data]

/-- The vector for the same request with the Opus audio codec. -/
def demoCmdOpus : List Str :=
  ["ffmpeg".data, "-y".data, "-loop".data, "1".data, "-framerate".data, "30".data,
   "-i".data, "a.png".data, "-i".data, "b.mp3".data, "-c:v".data, "libvpx-vp9".data,
   "-vf".data, vf720, "-pix_fmt".data, "yuv420p".data, "-crf".data, "32".data,
   "-b:v".data, "0".data, "-c:a".data, "libopus".data, "-b:a".data, "192k".data,
   "-ar".data, "48000".data, "-shortest".data, "-progress".data, "pipe:1".data,
   "-nostats".data, "/d/o.webm".data]

/-! ## Helper lemmas -/

theorem strLeB_total : ∀ a b : Str, strLeB a b = true ∨ strLeB b a = true := by
  intro a
  induction a with
  | nil => intro b; left; cases b <;> rfl
  | cons x xs ih =>
    intro b
    cases b with
    | nil => right; rfl
    | cons y ys =>
      simp only [strLeB]
      split_ifs with h1 h2 h3 <;> simp_all

theorem strLeB_trans :
    ∀ a b c : Str, strLeB a b = true → strLeB b c = true → strLeB a c = true := by
  intro a
  induction a with
  | nil => intro b c _ _; cases c <;> rfl
  | cons x xs ih =>
    intro b c hab hbc
    cases b with
    | nil => simp [strLeB] at hab
    | cons y ys =>
      cases c with
      | nil => simp [strLeB] at hbc
      | cons z zs =>
        simp only [strLeB] at hab hbc ⊢
        split_ifs at hab hbc ⊢ <;> first
          | rfl
          | omega
          | (exact hab)
          | (exact hbc)
          | (exact ih ys zs hab hbc)

theorem endswith_append (a b : Str) : endswith (a ++ b) b = true := by
  simp [endswith]

theorem lowerStr_append (a b : Str) : lowerStr (a ++ b) = lowerStr a ++ lowerStr b :=
  List.map_append _ a b

theorem lastArg_cons_cons (a b : Str) (l : List Str) :
    lastArg (a :: b :: l) = lastArg (b :: l) := rfl

theorem lastArg_singleton (a : Str) : lastArg [a] = some a := rfl

theorem foldl_lastLine (lines : List Str) (acc : Str) :
    lines.foldl (fun acc l => if l.isEmpty then acc else pyStrip l) acc
      = match lines.reverse.find? (fun l => !l.isEmpty) with
        | some l => pyStrip l
        | none => acc := by
  induction lines generalizing acc with
  | nil => rfl
  | cons l ls ih =>
    simp only [List.foldl_cons, List.reverse_cons, List.find?_append, ih]
    cases hf : ls.reverse.find? (fun l => !l.isEmpty) with
    | some m => simp
    | none =>
      simp only [Option.none_or]
      by_cases he : l.isEmpty <;> simp [List.find?, he]

theorem foldl_lastLine_nil (lines : List Str) :
    lines.foldl (fun acc l => if l.isEmpty then acc else pyStrip l) []
      = lastNonEmptyDiag lines := by
  rw [foldl_lastLine]; rfl

/-- C2: the progress parser maps out_time_ms=1500000 to processedSeconds 1.5 and
a following speed=2.00x to speedFactor 2.0; a malformed numeric field
(out_time_ms=garbage) leaves the previous sample unchanged; lines with
unrecognized keys are ignored; the parser is a total function on lines (the
embedding of the code's never-raise behaviour). -/
theorem C2_progress_lines (st : ProgressSample) :
    (parseProgressLine st "out_time_ms=1500000".data).outTime = 3/2 ∧
    (parseProgressLine st "out_time_ms=1500000".data).speed = st.speed ∧
    (parseProgressLine (parseProgressLine st "out_time_ms=1500000".data) "speed=2.00x".data)
      = { outTime := 3/2, speed := 2 } ∧
    parseProgressLine st "out_time_ms=garbage".data = st ∧
    (∀ line, lineKey line ≠ "out_time_ms".data → lineKey line ≠ "speed".data →
      parseProgressLine st line = st) := by
  refine ⟨?_, rfl, ?_, rfl, ?_⟩
  · have e : (parseProgressLine st "out_time_ms=1500000".data).outTime
        = (((1500000 : Nat) : Int) : ℚ) / 1000000 := rfl
    rw [e]; norm_num
  · have e : parseProgressLine (parseProgressLine st "out_time_ms=1500000".data)
        "speed=2.00x".data
        = ProgressSample.mk ((((1500000 : Nat) : Int) : ℚ) / 1000000)
            (((2 : Nat) : ℚ) + ((0 : Nat) : ℚ) / ((10 : ℚ) ^ (2 : ℕ))) := rfl
    rw [e]
    simp only [ProgressSample.mk.injEq]
    norm_num
  · intro line h1 h2
    unfold parseProgressLine
    rw [if_neg h1, if_neg h2]

/-- C2 witness: a concrete unrecognized key leaves a concrete sample unchanged. -/
theorem C2_witness :
    parseProgressLine ⟨0, 1⟩ "frame=5".data = (⟨0, 1⟩ : ProgressSample) :=
  (C2_progress_lines ⟨0, 1⟩).2.2.2.2 "frame=5".data (by decide) (by decide)

/-- C3 counterexample: in yt_creator.py, with hint 100, processedSeconds 0 and
speedFactor 2, the displayed ETA is the number 50, not unknown — refuting the
claim that ETA is unknown whenever processedSeconds is 0. -/
theorem C3_counterexample : eta_yt (some 100) 0 2 = some 50 := by
  show (if (0 : ℚ) < 100 then
      some (max ((100 : ℚ) - 0) 0 / (if (0 : ℚ) < 2 then 2 else 1)) else none) = some 50
  norm_num

/-- C3 amended: whenever the duration hint is known and positive, yt_creator.py
shows eta = max(hint - processed, 0) / (speed if speed > 0 else 1), which for
positive speed and processed not exceeding the hint is (hint - processed) /
speed — so 100, 25, 2.0 give 37.5; ETA is reported unknown exactly when the
hint is missing or nonpositive, and in particular at processedSeconds = 0 with
a known positive hint the code still reports the number hint / speed.  (The
percent-guarded ETA of old/ytc.py never runs: that variant's poll loop raises
a NameError on the unimported select before any ETA is displayed.) -/
theorem C3_eta_amended (td out speed : ℚ) :
    (0 < td → 0 < speed → out ≤ td → eta_yt (some td) out speed = some ((td - out) / speed)) ∧
    (0 < td → 0 < speed → eta_yt (some td) 0 speed = some (td / speed)) ∧
    eta_yt none out speed = none ∧
    (td ≤ 0 → eta_yt (some td) out speed = none) := by
  refine ⟨?_, ?_, rfl, ?_⟩
  · intro h1 h2 h3
    show (if 0 < td then
        some (max (td - out) 0 / (if 0 < speed then speed else 1)) else none) = _
    rw [if_pos h1, if_pos h2, max_eq_left (sub_nonneg.mpr h3)]
  · intro h1 h2
    show (if 0 < td then
        some (max (td - 0) 0 / (if 0 < speed then speed else 1)) else none) = _
    rw [if_pos h1, if_pos h2, sub_zero, max_eq_left h1.le]
  · intro h
    show (if 0 < td then
        some (max (td - out) 0 / (if 0 < speed then speed else 1)) else none) = none
    rw [if_neg (not_lt.mpr h)]

/-- C3 witness: the amended ETA formula at the spec's numbers, including the
zero-progress case that still yields a number. -/
theorem C3_witness :
    eta_yt (some 100) 25 2 = some (75 / 2) ∧ eta_yt (some 100) 0 2 = some 50 := by
  constructor
  · have h := (C3_eta_amended 100 25 2).1 (by norm_num) (by norm_num) (by norm_num)
    rw [h]; norm_num
  · have h := (C3_eta_amended 100 0 2).2.1 (by norm_num) (by norm_num)
    rw [h]; norm_num

/-- C4: on normal process exit the supervisor maps exit code 0 to Succeeded and
any non-zero exit code to Failed carrying that exit code and the stripped last
non-empty captured output line as the diagnostic. -/
theorem C4_outcome_mapping (lines : List Str) (rc : Int) :
    (rc = 0 → run_ffmpeg_outcome lines rc = JobOutcome.Succeeded) ∧
    (rc ≠ 0 → run_ffmpeg_outcome lines rc = JobOutcome.Failed rc (lastNonEmptyDiag lines)) := by
  unfold run_ffmpeg_outcome
  rw [foldl_lastLine_nil]
  constructor
  · intro h; rw [if_pos h]
  · intro h; rw [if_neg h]

/-- C4 witness: exit code 1 with concrete captured lines reports Failed with the
last non-empty line. -/
theorem C4_witness :
    run_ffmpeg_outcome ["frame=1 fps=30\n".data, "error: boom\n".data] 1
      = JobOutcome.Failed 1
          (lastNonEmptyDiag ["frame=1 fps=30\n".data, "error: boom\n".data]) :=
  (C4_outcome_mapping _ 1).2 (by decide)

/-- C5 counterexample: in yt_creator.py a single q keystroke (113) immediately
sends the terminate signal and returns 130 — there is no confirmation step
before the child is signaled, refuting the claim that the child is never
signaled before an explicit second confirmation. -/
theorem C5_counterexample : yt_cancel_key 113 false = ([Sig.term], some 130) := by decide

/-- C5 amended: cancellation is one-phase in the code that actually runs.  In
yt_creator.py a single q/ESC keystroke immediately sends the graceful
terminate, escalates to kill after the 0.2-second wait when the child is still
alive, and returns 130 — so the child is not running when the run returns; any
other key sends nothing.  No variant implements two-phase confirmed
cancellation: the confirmation-prompt code of old/ytc.py is unreachable (its
poll loop raises a NameError on the unimported select before any keystroke is
polled), and that variant instead terminates a still-running child
unconditionally in its finally block, also without any confirmation. -/
theorem C5_cancellation_amended (ch : Int) (alive : Bool) :
    (ch = 113 ∨ ch = 27 →
      (yt_cancel_key ch alive).2 = some 130 ∧
      (yt_cancel_key ch alive).1.head? = some Sig.term ∧
      (alive = true → (yt_cancel_key ch alive).1 = [Sig.term, Sig.kill]) ∧
      (alive = false → (yt_cancel_key ch alive).1 = [Sig.term])) ∧
    (¬(ch = 113 ∨ ch = 27) → yt_cancel_key ch alive = ([], none)) ∧
    ytc_finally_terminate true = [Sig.term] ∧
    ytc_finally_terminate false = [] := by
  refine ⟨?_, ?_, rfl, rfl⟩
  · intro h
    unfold yt_cancel_key
    rw [if_pos h]
    refine ⟨rfl, ?_, ?_, ?_⟩
    · cases alive <;> rfl
    · intro ha; subst ha; rfl
    · intro ha; subst ha; rfl
  · intro h
    unfold yt_cancel_key
    rw [if_neg h]

/-- C5 witness: the q keystroke on a child that survives the terminate yields
the 130 return value and the terminate-then-kill signal sequence. -/
theorem C5_witness :
    (yt_cancel_key 113 true).2 = some 130 ∧
    (yt_cancel_key 113 true).1 = [Sig.term, Sig.kill] := by
  have h := (C5_cancellation_amended 113 true).1 (Or.inl rfl)
  exact ⟨h.1, h.2.2.1 rfl⟩

/-- C8 counterexample: yt_creator.py names the output from the current Unix
timestamp: the same request at two different times yields different file
names, so the name is not derived deterministically from the audio base name,
resolution and audio format (nor does it mention them at all). -/
theorem C8_counterexample :
    suggested_out_yt "/d".data 1 "mp4".data ≠ suggested_out_yt "/d".data 2 "mp4".data := by
  decide

/-- C8 amended: in old/ytc.py and yt_creator_termux.py the output name is
derived deterministically from the sanitized audio base name, the resolution
(with x replaced by p) and the audio format, every character of the sanitized
base being in the allowed class (disallowed characters become underscores) and
the name ending in .format.mp4; yt_creator_linux.py uses the same scheme
without sanitization; yt_creator.py instead uses a timestamped name that
ignores the audio base name and resolution. -/
theorem C8_naming_amended (base res fmt : Str) :
    (∀ c ∈ sanitize base, allowedFileChar c = true) ∧
    endswith (output_path_ytc base res fmt) ('.' :: fmt ++ ".mp4".data) = true ∧
    'x' ∉ replaceXtoP res := by
  refine ⟨?_, ?_, ?_⟩
  · intro c hc
    simp only [sanitize, List.mem_map] at hc
    obtain ⟨a, _, rfl⟩ := hc
    by_cases h : allowedFileChar a
    · simp [h]
    · simp only [h, if_false, Bool.false_eq_true]; decide
  · have e : output_path_ytc base res fmt
        = (sanitize base ++ "_yt_".data ++ replaceXtoP res) ++ ('.' :: fmt ++ ".mp4".data) := by
      simp [output_path_ytc, List.append_assoc]
    rw [e]; exact endswith_append _ _
  · simp only [replaceXtoP, List.mem_map, not_exists]
    intro a
    rintro ⟨_, ha⟩
    by_cases h : a = 'x' <;> simp [h] at ha

/-- C8 witness: the amended naming property at a concrete request. -/
theorem C8_witness :
    (∀ c ∈ sanitize "mi cancion(1)".data, allowedFileChar c = true) ∧
    endswith (output_path_ytc "mi cancion(1)".data "1280x720".data "aac".data)
      ('.' :: "aac".data ++ ".mp4".data) = true ∧
    'x' ∉ replaceXtoP "1280x720".data :=
  C8_naming_amended "mi cancion(1)".data "1280x720".data "aac".data

/-- C1: for every encode request at resolution 1280x720 with AAC at 192 kbps the
generated vector contains the scale/pad filter string, the 192k audio bitrate
argument and the default libx264 video codec, and its output path carries the
mp4 container, rewritten from the requested path whenever the requested
extension does not match; selecting Opus instead flips the container to webm
and the video codec to libvpx-vp9 with the same suffix-rewrite rule. -/
theorem C1_ffmpeg_vector (img aud out : Str) (fr : Nat) (cmdA cmdO : List Str)
    (hA : build_ffmpeg_cmd img aud out res720 "aac".data 192 fr = some cmdA)
    (hO : build_ffmpeg_cmd img aud out res720 "libopus".data 192 fr = some cmdO) :
    C1Concl out cmdA cmdO := by
  have eA : build_ffmpeg_cmd img aud out res720 "aac".data 192 fr
      = some (["ffmpeg".data, "-y".data, "-loop".data, "1".data,
          "-framerate".data, (toString fr).data, "-i".data, img, "-i".data, aud,
          "-c:v".data, "libx264".data, "-vf".data, vf720,
          "-tune".data, "stillimage".data, "-pix_fmt".data, "yuv420p".data,
          "-preset".data, "veryfast".data, "-movflags".data, "+faststart".data,
          "-c:a".data, "aac".data, "-b:a".data, "192k".data, "-ar".data, "48000".data,
          "-shortest".data, "-progress".data, "pipe:1".data, "-nostats".data,
          if endswith (lowerStr out) ".mp4".data = true then out
          else splitextRoot out ++ ".mp4".data]) := rfl
  have eO : build_ffmpeg_cmd img aud out res720 "libopus".data 192 fr
      = some (["ffmpeg".data, "-y".data, "-loop".data, "1".data,
          "-framerate".data, (toString fr).data, "-i".data, img, "-i".data, aud,
          "-c:v".data, "libvpx-vp9".data, "-vf".data, vf720,
          "-pix_fmt".data, "yuv420p".data, "-crf".data, "32".data, "-b:v".data, "0".data,
          "-c:a".data, "libopus".data, "-b:a".data, "192k".data, "-ar".data, "48000".data,
          "-shortest".data, "-progress".data, "pipe:1".data, "-nostats".data,
          if endswith (lowerStr out) ".webm".data = true then out
          else splitextRoot out ++ ".webm".data]) := rfl
  rw [eA] at hA
  rw [eO] at hO
  have hA' := (Option.some.injEq _ _).mp hA
  have hO' := (Option.some.injEq _ _).mp hO
  subst hA'
  subst hO'
  constructor
  · refine ⟨by simp, by simp, by simp, ?_⟩
    refine ⟨_, rfl, ?_, ?_⟩
    · by_cases hc : endswith (lowerStr out) ".mp4".data = true
      · rw [if_pos hc]; exact hc
      · rw [if_neg hc, lowerStr_append]
        have e2 : lowerStr ".mp4".data = ".mp4".data := rfl
        rw [e2]; exact endswith_append _ _
    · intro h
      rw [if_neg (by simp [h])]
  · refine ⟨by simp, by simp, ?_⟩
    refine ⟨_, rfl, ?_, ?_⟩
    · by_cases hc : endswith (lowerStr out) ".webm".data = true
      · rw [if_pos hc]; exact hc
      · rw [if_neg hc, lowerStr_append]
        have e2 : lowerStr ".webm".data = ".webm".data := rfl
        rw [e2]; exact endswith_append _ _
    · intro h
      rw [if_neg (by simp [h])]

/-- C1 witness: the concrete request image a.png, audio b.mp3, requested output
/d/o.avi at 30 fps produces the demonstration vectors, whose properties follow. -/
theorem C1_witness :
    build_ffmpeg_cmd "a.png".data "b.mp3".data "/d/o.avi".data res720 "aac".data 192 30
        = some demoCmdAac ∧
    build_ffmpeg_cmd "a.png".data "b.mp3".data "/d/o.avi".data res720 "libopus".data 192 30
        = some demoCmdOpus ∧
    C1Concl "/d/o.avi".data demoCmdAac demoCmdOpus :=
  ⟨rfl, rfl, C1_ffmpeg_vector "a.png".data "b.mp3".data "/d/o.avi".data 30
      demoCmdAac demoCmdOpus rfl rfl⟩

theorem menuStep_bounds (len idx d : Int) (h : 1 ≤ len) :
    0 ≤ menuStep len idx d ∧ menuStep len idx d ≤ len - 1 := by
  simp only [menuStep, clampI]; omega

theorem menuInit_bounds (len pre : Int) (h : 1 ≤ len) :
    0 ≤ menuInit len pre ∧ menuInit len pre ≤ len - 1 := by
  simp only [menuInit, clampI]; omega

theorem foldl_menu_bounds (len : Int) (h : 1 ≤ len) :
    ∀ (ds : List Int) (idx : Int), 0 ≤ idx → idx ≤ len - 1 →
      MenuInv len (ds.foldl (menuStep len) idx) := by
  intro ds
  induction ds with
  | nil => intro idx h0 h1; exact ⟨h0, h1⟩
  | cons d ds ih =>
    intro idx _ _
    simpa using ih (menuStep len idx d) (menuStep_bounds len idx d h).1
      (menuStep_bounds len idx d h).2

theorem menuTop_window (len v idx : Int) (hv : 1 ≤ v) (h0 : 0 ≤ idx) (h1 : idx ≤ len - 1) :
    menuTop len v idx ≤ idx ∧ idx < menuTop len v idx + v := by
  simp only [menuTop, clampI]; omega

theorem adjust_scroll_inv (len vis : Int) (hv : 1 ≤ vis) (c o : Int)
    (hc0 : 0 ≤ c) (hc1 : c < len) (ho : 0 ≤ o) :
    ScrollInv len vis (adjust_scroll vis ⟨c, o⟩) := by
  simp only [adjust_scroll, ScrollInv]
  split_ifs with h1 h2 <;> (constructor <;> omega)

theorem fsel_navigate_inv (len vis : Int) (hl : 1 ≤ len) (hv : 1 ≤ vis)
    (s : ScrollState) (ho : 0 ≤ s.scroll_offset) (d : Int) :
    ScrollInv len vis (fsel_navigate len vis s d) := by
  unfold fsel_navigate
  exact adjust_scroll_inv len vis hv _ _ (by omega) (by omega) ho

theorem scrollRun_inv_aux (len vis : Int) (hl : 1 ≤ len) (hv : 1 ≤ vis) :
    ∀ (ds : List Int) (s : ScrollState), ScrollInv len vis s →
      ScrollInv len vis (ds.foldl (fsel_navigate len vis) s) := by
  intro ds
  induction ds with
  | nil => intro s hs; exact hs
  | cons d ds ih =>
    intro s hs
    simpa using ih (fsel_navigate len vis s d) (fsel_navigate_inv len vis hl hv s hs.2.2.1 d)

/-- C9: for every non-empty option list and every sequence of cursor moves the
SimpleMenu cursor stays within the index range and the per-redraw viewport
offset keeps it inside the visible window; and the FileSelector of old/ytc.py
preserves the full cursor/scroll-offset invariant (offset at most the cursor,
cursor strictly inside the vis-line window) across every navigate sequence. -/
theorem C9_cursor_viewport (len vis pre : Int) (ds moves : List Int)
    (hl : 1 ≤ len) (hv : 1 ≤ vis) :
    (MenuInv len (menuRun len pre ds) ∧
      menuTop len vis (menuRun len pre ds) ≤ menuRun len pre ds ∧
      menuRun len pre ds < menuTop len vis (menuRun len pre ds) + vis) ∧
    ScrollInv len vis (scrollRun len vis moves) := by
  have hm : MenuInv len (menuRun len pre ds) := by
    have hi := menuInit_bounds len pre hl
    exact foldl_menu_bounds len hl ds (menuInit len pre) hi.1 hi.2
  refine ⟨⟨hm, menuTop_window len vis _ hv hm.1 hm.2⟩, ?_⟩
  apply scrollRun_inv_aux len vis hl hv moves ⟨0, 0⟩
  show (0 : Int) ≤ 0 ∧ (0 : Int) < len ∧ (0 : Int) ≤ 0 ∧ (0 : Int) ≤ 0 ∧ (0 : Int) < 0 + vis
  omega

/-- C9 witness: a five-item list with a two-line viewport under concrete move
sequences. -/
theorem C9_witness :
    (MenuInv 5 (menuRun 5 1 [1, 1, -1, 1]) ∧
      menuTop 5 2 (menuRun 5 1 [1, 1, -1, 1]) ≤ menuRun 5 1 [1, 1, -1, 1] ∧
      menuRun 5 1 [1, 1, -1, 1] < menuTop 5 2 (menuRun 5 1 [1, 1, -1, 1]) + 2) ∧
    ScrollInv 5 2 (scrollRun 5 2 [1, 1, 1, -1]) :=
  C9_cursor_viewport 5 2 1 [1, 1, -1, 1] [1, 1, 1, -1] (by decide) (by decide)

theorem update_files_r_head (exts : List Str) (res : ReadResult) (files : List Str)
    (h : update_files_r exts res = .ok files) : files.head? = some dotdot := by
  cases res with
  | ok items =>
    simp only [update_files_r, Except.ok.injEq] at h
    subst h
    unfold update_files_names
    split <;> rfl
  | permError =>
    simp only [update_files_r, Except.ok.injEq] at h
    subst h; rfl
  | otherError => simp [update_files_r] at h

theorem update_files_r_len (exts : List Str) (res : ReadResult) (files : List Str)
    (h : update_files_r exts res = .ok files) : 1 ≤ (files.length : Int) := by
  have hh := update_files_r_head exts res files h
  cases files with
  | nil => simp at hh
  | cons a t => simp only [List.length_cons]; omega

theorem fs_update_inv (exts : List Str) (res : ReadResult) (s s2 : FSState)
    (hc : 0 ≤ s.cursor) (h : fs_update exts res s = .ok s2) : FSInv s2 := by
  unfold fs_update at h
  cases hr : update_files_r exts res with
  | error e => rw [hr] at h; simp at h
  | ok files =>
    rw [hr] at h
    simp only [Except.ok.injEq] at h
    subst h
    have hl := update_files_r_len exts res files hr
    refine ⟨update_files_r_head exts res files hr, ?_, ?_⟩
    · show (0 : Int) ≤ min s.cursor ((files.length : Int) - 1)
      omega
    · show min s.cursor ((files.length : Int) - 1) < (files.length : Int)
      omega

theorem fsstate_len_pos (s : FSState) (h : FSInv s) : 1 ≤ (s.files.length : Int) := by
  obtain ⟨hh, -, -⟩ := h
  cases hf : s.files with
  | nil => rw [hf] at hh; simp at hh
  | cons a t => simp only [List.length_cons]; omega

theorem fs_navigate_inv (d : Int) (s : FSState) (h : FSInv s) :
    FSInv (fs_navigate d s) := by
  have hl := fsstate_len_pos s h
  refine ⟨h.1, ?_, ?_⟩
  · show (0 : Int) ≤ max 0 (min (s.cursor + d) ((s.files.length : Int) - 1))
    omega
  · show max 0 (min (s.cursor + d) ((s.files.length : Int) - 1)) < (s.files.length : Int)
    omega

theorem fs_enter_inv (fs : List Str → ReadResult) (isDirQ : List Str → Str → Bool)
    (exts : List Str) (s s2 : FSState) (r : Option (List Str)) (h : FSInv s)
    (he : fs_enter fs isDirQ exts s = .ok (s2, r)) : FSInv s2 := by
  simp only [fs_enter] at he
  split_ifs at he with h1 h2
  · cases hu : fs_update exts (fs s.path.dropLast)
        { s with path := s.path.dropLast, cursor := 0 } with
    | error e => rw [hu] at he; simp [Except.map] at he
    | ok t =>
      rw [hu] at he
      simp only [Except.map, Except.ok.injEq, Prod.mk.injEq] at he
      obtain ⟨rfl, -⟩ := he
      exact fs_update_inv _ _ _ _ (le_refl 0) hu
  · cases hu : fs_update exts (fs (s.path ++ [s.files.getD s.cursor.toNat []]))
        { s with path := s.path ++ [s.files.getD s.cursor.toNat []], cursor := 0 } with
    | error e => rw [hu] at he; simp [Except.map] at he
    | ok t =>
      rw [hu] at he
      simp only [Except.map, Except.ok.injEq, Prod.mk.injEq] at he
      obtain ⟨rfl, -⟩ := he
      exact fs_update_inv _ _ _ _ (le_refl 0) hu
  · simp only [Except.ok.injEq, Prod.mk.injEq] at he
    obtain ⟨rfl, -⟩ := he
    exact h

theorem fs_step_inv (fs : List Str → ReadResult) (isDirQ : List Str → Str → Bool)
    (exts : List Str) (op : FSOp) (s s2 : FSState) (h : FSInv s)
    (he : fs_step fs isDirQ exts op s = .ok s2) : FSInv s2 := by
  cases op with
  | nav d =>
    simp only [fs_step, Except.ok.injEq] at he
    subst he
    exact fs_navigate_inv d s h
  | enter =>
    simp only [fs_step] at he
    cases hu : fs_enter fs isDirQ exts s with
    | error e => rw [hu] at he; simp [Except.map] at he
    | ok p =>
      rw [hu] at he
      simp only [Except.map, Except.ok.injEq] at he
      subst he
      exact fs_enter_inv fs isDirQ exts s p.1 p.2 h (by rw [hu])
  | refresh =>
    simp only [fs_step] at he
    exact fs_update_inv _ _ _ _ h.2.1 he

theorem fs_run_inv (fs : List Str → ReadResult) (isDirQ : List Str → Str → Bool)
    (exts : List Str) :
    ∀ (ops : List FSOp) (s s2 : FSState), FSInv s →
      fs_run fs isDirQ exts ops s = .ok s2 → FSInv s2 := by
  intro ops
  induction ops with
  | nil =>
    intro s s2 h he
    simp only [fs_run, Except.ok.injEq] at he
    subst he; exact h
  | cons op ops ih =>
    intro s s2 h he
    simp only [fs_run] at he
    cases hs : fs_step fs isDirQ exts op s with
    | error e => rw [hs] at he; simp at he
    | ok s1 =>
      rw [hs] at he
      exact ih s1 s2 (fs_step_inv fs isDirQ exts op s s1 h hs) he

/-- C10: after construction and after every navigate, enter or update_files of
the FileSelector, the files list has the parent marker at index 0 (hence is
non-empty) and the cursor is in range, so the indexing done by enter is always
safe, even when the directory read failed; and entering the parent marker at
the filesystem root leaves the current directory unchanged and selects no
file. -/
theorem C10_fileselector_safety :
    (∀ (fs : List Str → ReadResult) (isDirQ : List Str → Str → Bool)
        (exts start : List Str) (ops : List FSOp) (s0 s1 : FSState),
        fs_init fs exts start = .ok s0 → fs_run fs isDirQ exts ops s0 = .ok s1 →
        FSInv s1) ∧
    (∀ (fs : List Str → ReadResult) (isDirQ : List Str → Str → Bool)
        (exts : List Str) (s : FSState), FSInv s → s.path = [] → s.cursor = 0 →
        ∀ s2 r, fs_enter fs isDirQ exts s = .ok (s2, r) → s2.path = [] ∧ r = none) := by
  constructor
  · intro fs isDirQ exts start ops s0 s1 h0 hr
    exact fs_run_inv fs isDirQ exts ops s0 s1
      (fs_update_inv _ _ _ _ (le_refl 0) h0) hr
  · intro fs isDirQ exts s h hp hc s2 r he
    have hsel : s.files.getD s.cursor.toNat [] = dotdot := by
      obtain ⟨hh, -, -⟩ := h
      rw [hc]
      cases hf : s.files with
      | nil => rw [hf] at hh; simp at hh
      | cons a t =>
        rw [hf] at hh
        simp only [List.head?_cons, Option.some.injEq] at hh
        simpa using hh
    simp only [fs_enter] at he
    rw [hsel, if_pos rfl, hp] at he
    simp only [List.dropLast_nil] at he
    cases hu : fs_update exts (fs []) { s with path := ([] : List Str), cursor := 0 } with
    | error e => rw [hu] at he; simp [Except.map] at he
    | ok t =>
      rw [hu] at he
      simp only [Except.map, Except.ok.injEq, Prod.mk.injEq] at he
      obtain ⟨rfl, rfl⟩ := he
      refine ⟨?_, rfl⟩
      have : t.path = ({ s with path := ([] : List Str), cursor := 0 } : FSState).path := by
        unfold fs_update at hu
        cases hr : update_files_r exts (fs []) with
        | error e => rw [hr] at hu; simp at hu
        | ok files =>
          rw [hr] at hu
          simp only [Except.ok.injEq] at hu
          subst hu
          rfl
      simpa using this

/-- C10 witness: a concrete selector over a two-entry root directory whose
subdirectories report PermissionError, driven through navigation, file
selection, a refresh and a parent-marker enter at the root. -/
theorem C10_witness :
    fs_init
        (fun p => if p = [] then
            ReadResult.ok [⟨"music".data, true, false⟩, ⟨"a.mp3".data, false, true⟩]
          else ReadResult.permError)
        [".mp3".data] []
      = Except.ok ⟨[], 0, [dotdot, "a.mp3".data, "music".data]⟩ ∧
    fs_run
        (fun p => if p = [] then
            ReadResult.ok [⟨"music".data, true, false⟩, ⟨"a.mp3".data, false, true⟩]
          else ReadResult.permError)
        (fun _ n => n == "music".data) [".mp3".data]
        [.nav 1, .enter, .refresh, .nav (-5), .enter]
        ⟨[], 0, [dotdot, "a.mp3".data, "music".data]⟩
      = Except.ok ⟨[], 0, [dotdot, "a.mp3".data, "music".data]⟩ ∧
    FSInv ⟨[], 0, [dotdot, "a.mp3".data, "music".data]⟩ :=
  ⟨by rfl, by rfl,
    C10_fileselector_safety.1
      (fun p => if p = [] then
          ReadResult.ok [⟨"music".data, true, false⟩, ⟨"a.mp3".data, false, true⟩]
        else ReadResult.permError)
      (fun _ n => n == "music".data) [".mp3".data] []
      [.nav 1, .enter, .refresh, .nav (-5), .enter]
      ⟨[], 0, [dotdot, "a.mp3".data, "music".data]⟩
      ⟨[], 0, [dotdot, "a.mp3".data, "music".data]⟩
      (by rfl) (by rfl)⟩

theorem sortEntries_pairwise (l : List DirEntry) : (sortEntries l).Pairwise entryLe := by
  haveI : IsTotal DirEntry entryLe := ⟨fun a b => strLeB_total a.name b.name⟩
  haveI : IsTrans DirEntry entryLe := ⟨fun a b c => strLeB_trans a.name b.name c.name⟩
  exact List.sorted_insertionSort entryLe l

theorem mem_sortEntries {x : DirEntry} {l : List DirEntry} : x ∈ sortEntries l ↔ x ∈ l :=
  List.mem_insertionSort entryLe

theorem sortStrs_pairwise (l : List Str) : (sortStrs l).Pairwise strLe := by
  haveI : IsTotal Str strLe := ⟨strLeB_total⟩
  haveI : IsTrans Str strLe := ⟨strLeB_trans⟩
  exact List.sorted_insertionSort strLe l

theorem mem_sortStrs {x : Str} {l : List Str} : x ∈ sortStrs l ↔ x ∈ l :=
  List.mem_insertionSort strLe

theorem filterMap_guard {α β : Type} (p : α → Bool) (g : α → β) (l : List α)
    (f : α → Option β) (hf : ∀ a, f a = if p a then some (g a) else none) :
    l.filterMap f = (l.filter p).map g := by
  induction l with
  | nil => rfl
  | cons a t ih =>
    by_cases h : p a
    · simp [List.filterMap_cons, List.filter_cons, hf a, h, ih]
    · simp [List.filterMap_cons, List.filter_cons, hf a, h, ih]

theorem entryLabel_eq (allowed : Option (List Str)) (e : DirEntry) :
    entryLabel allowed e = if keepA allowed e then some (labelA e) else none := by
  unfold entryLabel keepA labelA
  cases hd : e.isDir
  · cases allowed with
    | none => simp
    | some exts =>
      by_cases hm : splitextExt (lowerStr e.name) ∈ exts <;> simp [hm]
  · cases allowed <;> simp

theorem getLast?_mem_of {α : Type} {l : List α} {c : α} (h : l.getLast? = some c) : c ∈ l := by
  obtain ⟨hh, rfl⟩ := List.mem_getLast?_eq_getLast (l := l) (x := c) h
  exact List.getLast_mem hh

theorem stripSlash_labelA (e : DirEntry) (h : '/' ∉ e.name) :
    stripSlash (labelA e) = e.name := by
  unfold stripSlash labelA
  cases hd : e.isDir
  · simp only [Bool.false_eq_true, if_false]
    split_ifs with hg
    · exact absurd (getLast?_mem_of hg) h
    · rfl
  · simp only [if_true, List.getLast?_concat, if_pos rfl, List.dropLast_concat]

/-- C6: both pickers produce listings with the parent marker as the first item,
followed by the entries sorted lexicographically by name with directories and
files interleaved; directories are always included regardless of the filter,
non-directory entries are included iff their extension matches the
(lowercase-compared) allowed set, and an absent/empty filter admits every
file. -/
theorem C6_listing (items : List DirEntry) (allowed : Option (List Str)) (exts : List Str)
    (hv : ∀ e ∈ items, validName e.name) (hnd : (items.map (·.name)).Nodup) :
    C6SpecA items allowed ∧ C6SpecB items exts := by
  have hT2 : (sortEntries items).filterMap (entryLabel allowed)
      = ((sortEntries items).filter (keepA allowed)).map labelA :=
    filterMap_guard (keepA allowed) labelA _ (entryLabel allowed) (entryLabel_eq allowed)
  have hTail : (list_dir_entries (some items) allowed).tail
      = ((sortEntries items).filter (keepA allowed)).map labelA := by
    simp only [list_dir_entries, List.tail_cons]
    exact hT2
  constructor
  · refine ⟨rfl, ?_, ?_, ?_⟩
    · rw [hTail, List.pairwise_map]
      have hfp : ((sortEntries items).filter (keepA allowed)).Pairwise entryLe :=
        (sortEntries_pairwise items).filter _
      refine hfp.imp_of_mem ?_
      intro a b ha hb hab
      have hva := hv a (mem_sortEntries.mp (List.mem_of_mem_filter ha))
      have hvb := hv b (mem_sortEntries.mp (List.mem_of_mem_filter hb))
      rw [stripSlash_labelA a hva.1, stripSlash_labelA b hvb.1]
      exact hab
    · intro e he hd
      apply List.mem_cons_of_mem
      rw [hT2]
      refine List.mem_map.mpr ⟨e, List.mem_filter.mpr ⟨mem_sortEntries.mpr he, ?_⟩, ?_⟩
      · simp [keepA, hd]
      · simp [labelA, hd]
    · intro e he hd
      have hvn := hv e he
      constructor
      · intro h
        rcases List.mem_cons.mp h with h0 | h1
        · exact absurd h0 hvn.2
        · rw [hT2] at h1
          obtain ⟨e', he', hlab⟩ := List.mem_map.mp h1
          have hke' := (List.mem_filter.mp he').2
          cases hd' : e'.isDir
          · rw [labelA, if_neg (by simp [hd'])] at hlab
            simp only [keepA, hd', Bool.false_or] at hke'
            cases hall : allowed with
            | none => exact Or.inl rfl
            | some exts2 =>
              rw [hall] at hke'
              simp only [decide_eq_true_eq] at hke'
              exact Or.inr ⟨exts2, rfl, hlab ▸ hke'⟩
          · rw [labelA, if_pos (by simp [hd'])] at hlab
            have : '/' ∈ e.name := by
              rw [← hlab]
              exact List.mem_append.mpr (Or.inr (List.mem_singleton_self '/'))
            exact absurd this hvn.1
      · intro hcond
        have hk : keepA allowed e = true := by
          rcases hcond with h0 | ⟨exts2, he2, hm⟩
          · simp [keepA, h0]
          · simp [keepA, hd, he2, hm]
        apply List.mem_cons_of_mem
        rw [hT2]
        refine List.mem_map.mpr ⟨e, List.mem_filter.mpr ⟨mem_sortEntries.mpr he, hk⟩, ?_⟩
        simp [labelA, hd]
  · by_cases hE : exts.isEmpty = true
    · have hE0 : exts = [] := List.isEmpty_iff.mp hE
      refine ⟨?_, ?_, ?_, ?_⟩
      · rw [update_files_names, if_pos hE]; rfl
      · rw [update_files_names, if_pos hE]
        simpa using sortStrs_pairwise (items.map (·.name))
      · intro _ e he
        rw [update_files_names, if_pos hE]
        exact List.mem_cons_of_mem _ (mem_sortStrs.mpr (List.mem_map_of_mem _ he))
      · intro hne
        exact absurd hE0 hne
    · refine ⟨?_, ?_, ?_, ?_⟩
      · rw [update_files_names, if_neg hE]; rfl
      · rw [update_files_names, if_neg hE]
        simpa using sortStrs_pairwise (((items.filter (linuxKeep exts)).map (·.name)))
      · intro hE0
        exact absurd (by rw [hE0]; rfl) hE
      · intro _ e he
        constructor
        · intro hd
          rw [update_files_names, if_neg hE]
          apply List.mem_cons_of_mem
          apply mem_sortStrs.mpr
          exact List.mem_map_of_mem _ (List.mem_filter.mpr ⟨he, by simp [linuxKeep, hd]⟩)
        · intro hd hf
          have hvn := hv e he
          rw [update_files_names, if_neg hE]
          constructor
          · intro h
            rcases List.mem_cons.mp h with h0 | h1
            · exact absurd h0 hvn.2
            · obtain ⟨e', he', hname⟩ := List.mem_map.mp (mem_sortStrs.mp h1)
              have he'i := (List.mem_filter.mp he').1
              have hke' := (List.mem_filter.mp he').2
              have : e' = e := List.inj_on_of_nodup_map hnd he'i he hname
              subst this
              simp only [linuxKeep, hd, hf, Bool.false_or, Bool.true_and,
                decide_eq_true_eq] at hke'
              exact hke'
          · intro hm
            apply List.mem_cons_of_mem
            apply mem_sortStrs.mpr
            exact List.mem_map_of_mem _
              (List.mem_filter.mpr ⟨he, by simp [linuxKeep, hd, hf, hm]⟩)

/-- C6 witness: a three-entry directory (one directory, an uppercase-extension
mp3, a text file) under the mp3 filter. -/
theorem C6_witness :
    (∀ e ∈ ([⟨"beta".data, true, false⟩, ⟨"Alpha.MP3".data, false, true⟩,
        ⟨"c.txt".data, false, true⟩] : List DirEntry), validName e.name) ∧
    (([⟨"beta".data, true, false⟩, ⟨"Alpha.MP3".data, false, true⟩,
        ⟨"c.txt".data, false, true⟩] : List DirEntry).map (·.name)).Nodup ∧
    (C6SpecA [⟨"beta".data, true, false⟩, ⟨"Alpha.MP3".data, false, true⟩,
        ⟨"c.txt".data, false, true⟩] (some [".mp3".data]) ∧
      C6SpecB [⟨"beta".data, true, false⟩, ⟨"Alpha.MP3".data, false, true⟩,
        ⟨"c.txt".data, false, true⟩] [".mp3".data]) :=
  ⟨by decide, by decide,
    C6_listing [⟨"beta".data, true, false⟩, ⟨"Alpha.MP3".data, false, true⟩,
      ⟨"c.txt".data, false, true⟩] (some [".mp3".data]) [".mp3".data]
      (by decide) (by decide)⟩

/-- C7 counterexample: the linux/old update_files catches only PermissionError;
a different read failure (such as the directory vanishing in a rename race,
raising FileNotFoundError) propagates — the reload does raise, refuting the
never-raises claim. -/
theorem C7_counterexample :
    update_files_r [".mp3".data] ReadResult.otherError = Except.error () := rfl

/-- C7 amended: on a failed directory read, yt_creator.py list_dir_entries never
raises and degrades to the empty listing (no parent marker); the linux/old
variants degrade to only the parent marker on PermissionError but re-raise any
other read error (e.g. a vanished directory). -/
theorem C7_degradation_amended (allowed : Option (List Str)) (exts : List Str) :
    list_dir_entries none allowed = [] ∧
    update_files_r exts ReadResult.permError = Except.ok [dotdot] ∧
    update_files_r exts ReadResult.otherError = Except.error () :=
  ⟨rfl, rfl, rfl⟩
